import Mathlib

/-!
Verification development for the remaining-lease-duration parser and the
multi-source resale-dataset reconciliation pipeline of
`src/data/download_data.py`.

The Python code is shallowly embedded: strings are `String`/`List Char`,
Python `None`/`pd.NA`/`NaN` cells are `Option.none`, numeric cells are `ℚ`
(the code never relies on float rounding in the properties considered),
and fallible code returns `Option`.  Python's builtin string helpers used
by the code (`str.lower`, `str.split`, `str.isdigit`, substring `in`,
`int(...)`, `float(...)`) are embedded over ASCII character lists.
The parser's two int-to-float conversions can raise an uncaught
OverflowError on counts outside the double range; that raising path is
modelled explicitly by `PyOutcome`/`parse_remaining_lease_outcome`
alongside the value-level `parse_remaining_lease`, and the two
embeddings are proved to agree on every returning execution.
-/

/-- A token: one whitespace-free run of characters, as produced by
Python's `str.split()`. -/
abbrev Tok := List Char

/-- Python `str.isdigit` for a single ASCII character: the characters 0-9
(codes 48 to 57). -/
def pyIsDigit (c : Char) : Bool :=
  decide (48 ≤ c.toNat) && decide (c.toNat ≤ 57)

/-- Python `str.lower` on a single ASCII character: map codes 65-90 (A-Z)
to 97-122 (a-z), leave everything else unchanged. -/
def pyLower (c : Char) : Char :=
  if 65 ≤ c.toNat ∧ c.toNat ≤ 90 then Char.ofNat (c.toNat + 32) else c

/-- The ASCII whitespace characters on which Python's `str.split()`
(no-argument form) splits. -/
def pySpace (c : Char) : Bool :=
  c == ' ' || c == '\t' || c == '\n' || c == '\x0b' || c == '\x0c' || c == '\r'

/-- Python `int(s)` on a string of decimal digits. -/
def natOfDigits (t : Tok) : Nat :=
  t.foldl (fun a c => 10 * a + (c.toNat - 48)) 0

/-- `isPrefTok n h` holds when character list `n` is a prefix of `h`. -/
def isPrefTok : List Char → List Char → Bool
  | [], _ => true
  | _ :: _, [] => false
  | a :: as, b :: bs => a == b && isPrefTok as bs

/-- `hasSub n h` embeds Python's substring test `n in h`. -/
def hasSub (n : List Char) : List Char → Bool
  | [] => n.isEmpty
  | c :: cs => isPrefTok n (c :: cs) || hasSub n cs

/-- Python `parts[i].isdigit()`: nonempty and all decimal digits. -/
def isDigitsTok (t : Tok) : Bool :=
  !t.isEmpty && t.all pyIsDigit

/-- Python `s.replace('.', '', 1)`: remove the first dot, if any. -/
def removeFirstDot : List Char → List Char
  | [] => []
  | c :: cs => if c == '.' then cs else c :: removeFirstDot cs

/-- The guard `parts[0].replace('.', '', 1).isdigit()` of the
bare-number fallback: after deleting at most one dot the token is a
nonempty string of digits. -/
def isFloatTok (t : Tok) : Bool :=
  isDigitsTok (removeFirstDot t)

/-- Python `float(s)` on a token accepted by `isFloatTok`: integer part
plus fractional part after the first dot. -/
def floatTokVal (t : Tok) : ℚ :=
  (natOfDigits (t.takeWhile (fun c => c != '.')) : ℚ) +
    (natOfDigits ((t.dropWhile (fun c => c != '.')).drop 1) : ℚ) /
      (10 : ℚ) ^ ((t.dropWhile (fun c => c != '.')).drop 1).length

/-- Worker for `pySplit`: `cur` holds the characters of the token
currently being read, in reverse. -/
def splitAux : List Char → List Char → List Tok
  | [], cur => if cur.isEmpty then [] else [cur.reverse]
  | c :: cs, cur =>
    if pySpace c then
      if cur.isEmpty then splitAux cs [] else cur.reverse :: splitAux cs []
    else splitAux cs (c :: cur)

/-- Python `str.split()` with no argument: split on runs of whitespace,
discarding empty tokens (so leading/trailing whitespace is trimmed). -/
def pySplit (cs : List Char) : List Tok := splitAux cs []

/-- The year-keyword test of the scans in `parse_remaining_lease`:
`"year" in part or "yrs" in part`. -/
def isYearKw (t : Tok) : Bool :=
  hasSub (("year").data) t || hasSub (("yrs").data) t

/-- The month-keyword test of the month scan:
`"month" in part or "mth" in part or "mths" in part`. -/
def isMonthKw (t : Tok) : Bool :=
  hasSub (("month").data) t || hasSub (("mth").data) t || hasSub (("mths").data) t

/-- The month-keyword test of the adjacent-number fallback's exclusion
check (line 138), which only checks `"month"` and `"mth"`. -/
def isMonthExclKw (t : Tok) : Bool :=
  hasSub (("month").data) t || hasSub (("mth").data) t

/-- The keyword scans of `parse_remaining_lease` (lines 106-110 and
114-118): walk the tokens left to right carrying the previous token;
at a keyword token whose immediately preceding token is a digit string,
return that integer and stop; otherwise keep scanning. -/
def scanNumBefore (kwCheck : Tok → Bool) : Option Tok → List Tok → Option Nat
  | _, [] => Option.none
  | prev, p :: rest =>
    if kwCheck p then
      match prev with
      | some q => if isDigitsTok q then some (natOfDigits q) else scanNumBefore kwCheck (some p) rest
      | Option.none => scanNumBefore kwCheck (some p) rest
    else scanNumBefore kwCheck (some p) rest

/-- Index of the first token satisfying `kwCheck` (the
`year_keyword_idx` loop of lines 131-135; `none` models `-1`). -/
def firstKwIdx (kwCheck : Tok → Bool) : List Tok → Option Nat
  | [] => Option.none
  | p :: rest => if kwCheck p then some 0 else (firstKwIdx kwCheck rest).map (· + 1)

/-- The `years` variable after lines 104-110: the scan runs only when the
whole lowered string contains `"year"` or `"yrs"`, and `years` stays `0`
when the scan finds nothing. -/
def yearsOf (cs : List Char) (parts : List Tok) : Nat :=
  if hasSub (("year").data) cs || hasSub (("yrs").data) cs then
    (scanNumBefore isYearKw Option.none parts).getD 0
  else 0

/-- The `months` variable after lines 112-118 (before the adjacent-number
fallback). -/
def monthsOf (cs : List Char) (parts : List Tok) : Nat :=
  if hasSub (("month").data) cs || hasSub (("mth").data) cs || hasSub (("mths").data) cs then
    (scanNumBefore isMonthKw Option.none parts).getD 0
  else 0

/-- The adjacent-number fallback (lines 129-141), entered with
`months == 0`: find the first year-keyword token; if the next token is a
digit string and the token after that (when present) is not a month
keyword, that digit string is the implicit month count. -/
def adjacentMonths (parts : List Tok) : Nat :=
  match firstKwIdx isYearKw parts with
  | Option.none => 0
  | some i =>
    if i + 1 < parts.length ∧ isDigitsTok (parts.getD (i + 1) []) then
      if i + 2 < parts.length ∧ isMonthExclKw (parts.getD (i + 2) []) then 0
      else natOfDigits (parts.getD (i + 1) [])
    else 0

/-- The final value of `months`: the adjacent-number fallback only fires
when a positive year count was found and no month count was set. -/
def monthsFinal (cs : List Char) (parts : List Tok) : Nat :=
  if 0 < yearsOf cs parts ∧ monthsOf cs parts = 0 then adjacentMonths parts
  else monthsOf cs parts

/-- Lines 120-147 of `parse_remaining_lease`, after lowering and
tokenizing: bare-number fallback, adjacent-number fallback, the
no-component check, and the final `years + months / 12.0`.  This is the
value-level embedding: it gives the exact rational value of every
execution that returns.  Line 147 converts the unbounded `years` and
`months` ints to float and CPython raises an uncaught OverflowError
(the `except` at line 148 lists only ValueError and IndexError) when a
count is at least `pyFloatIntMax`; that raising path is modelled by
`parseCoreOutcome`, which agrees with this function on every returning
execution (`parseCoreOutcome_agrees`). -/
def parseCore (cs : List Char) (parts : List Tok) : Option ℚ :=
  if yearsOf cs parts = 0 ∧ monthsOf cs parts = 0 ∧ parts.length = 1 ∧
      isFloatTok (parts.getD 0 []) then
    some (floatTokVal (parts.getD 0 []))
  else if yearsOf cs parts = 0 ∧ monthsFinal cs parts = 0 then Option.none
  else some ((yearsOf cs parts : ℚ) + (monthsFinal cs parts : ℚ) / 12)

/-- The string path of `parse_remaining_lease`: lower-case, tokenize on
whitespace, then `parseCore`. -/
def parseLeaseStr (cs0 : List Char) : Option ℚ :=
  parseCore (cs0.map pyLower) (pySplit (cs0.map pyLower))

/-- The possible Python values reaching `parse_remaining_lease`: a
missing marker (`None`, `pd.NA`, `NaN`), a non-missing number, or a
string.  Ints and floats are collapsed into one numeric constructor
here; the int/float distinction, which matters only for the line-94
OverflowError, is carried by `PyInput` below. -/
inductive PyVal where
  | missing : PyVal
  | num : ℚ → PyVal
  | str : String → PyVal
deriving DecidableEq

/-- `parse_remaining_lease` (lines 89-150): missing markers give `None`;
a non-missing number is returned as-is (already in years); the empty
string gives `None`; otherwise the string is parsed.  This is the
value-level embedding, giving the exact rational value of every
execution that returns.  It does not model the two int-to-float
conversions that can raise an uncaught OverflowError — `float(lease_str)`
at line 94 on a numeric int outside the double range, and
`years + (months / 12.0)` at line 147 on a scanned count outside that
range; those raising paths are modelled by
`parse_remaining_lease_outcome`, which agrees with this function on
every returning execution (`parse_outcome_agrees`). -/
def parse_remaining_lease : PyVal → Option ℚ
  | PyVal.missing => Option.none
  | PyVal.num q => some q
  | PyVal.str s => if s.data = [] then Option.none else parseLeaseStr s.data

/-- The least magnitude at which CPython `float(n)` on an int raises
OverflowError: values of at least `2^1024 - 2^970` round (half-even) to
`2^1024`, outside the double range.  The largest finite double is
`2^1024 - 2^971`. -/
def pyFloatIntMax : Nat := 2 ^ 1024 - 2 ^ 970

/-- The observable outcome of one call to `parse_remaining_lease`: it
returns a value (`None` or a float, idealized as an exact rational), or
an uncaught OverflowError escapes (the `except` at line 148 catches
only ValueError and IndexError). -/
inductive PyOutcome where
  | ret : Option ℚ → PyOutcome
  | overflowError : PyOutcome
deriving DecidableEq

/-- The inputs of `parse_remaining_lease` with the int/float distinction
Python makes at line 94: `float(x)` is the identity on a float but
converts an int, raising OverflowError outside the double range. -/
inductive PyInput where
  | missing : PyInput
  | intNum : ℤ → PyInput
  | floatNum : ℚ → PyInput
  | strVal : String → PyInput
deriving DecidableEq

/-- `PyInput` forgetting the int/float distinction. -/
def toPyVal : PyInput → PyVal
  | PyInput.missing => PyVal.missing
  | PyInput.intNum n => PyVal.num (n : ℚ)
  | PyInput.floatNum q => PyVal.num q
  | PyInput.strVal s => PyVal.str s

/-- Lines 120-147 with the line-147 raising path modelled:
`years + (months / 12.0)` first converts `months` and then `years` to
float, raising an uncaught OverflowError when either count is at least
`pyFloatIntMax`.  The bare-number branch cannot raise: `float` applied
to a STRING (line 122) yields `inf` on decimal overflow instead of
raising, so that branch always returns (its value idealized as the
exact rational `floatTokVal`).  The `int(...)` calls of the scans are
unbounded Python ints and never raise. -/
def parseCoreOutcome (cs : List Char) (parts : List Tok) : PyOutcome :=
  if yearsOf cs parts = 0 ∧ monthsOf cs parts = 0 ∧ parts.length = 1 ∧
      isFloatTok (parts.getD 0 []) then
    PyOutcome.ret (some (floatTokVal (parts.getD 0 [])))
  else if yearsOf cs parts = 0 ∧ monthsFinal cs parts = 0 then
    PyOutcome.ret Option.none
  else if pyFloatIntMax ≤ monthsFinal cs parts ∨ pyFloatIntMax ≤ yearsOf cs parts then
    PyOutcome.overflowError
  else
    PyOutcome.ret (some ((yearsOf cs parts : ℚ) + (monthsFinal cs parts : ℚ) / 12))

/-- `parse_remaining_lease` with both raising paths modelled: line 94
(`float(lease_str)` on an int outside the double range) and line 147
(a scanned count outside that range, via `parseCoreOutcome`). -/
def parse_remaining_lease_outcome : PyInput → PyOutcome
  | PyInput.missing => PyOutcome.ret Option.none
  | PyInput.intNum n =>
    if pyFloatIntMax ≤ n.natAbs then PyOutcome.overflowError
    else PyOutcome.ret (some (n : ℚ))
  | PyInput.floatNum q => PyOutcome.ret (some q)
  | PyInput.strVal s =>
    if s.data = [] then PyOutcome.ret Option.none
    else parseCoreOutcome (s.data.map pyLower) (pySplit (s.data.map pyLower))

/-- A row of the combined resale frame, in the canonical schema of
`expected_columns` (lines 159-163).  Every cell is optional: `none` is
the pandas missing marker (`NaN`/`NaT`/`NA`).  `month` is the
`pd.to_datetime(..., format=yyyy-mm, errors=coerce)` result, kept as a
(year, month) pair. -/
structure Row where
  month : Option (Nat × Nat)
  town : Option String
  flat_type : Option String
  block : Option String
  street_name : Option String
  storey_range : Option String
  floor_area_sqm : Option ℚ
  flat_model : Option String
  lease_commence_date : Option ℚ
  resale_price : Option ℚ
  remaining_lease_years : Option ℚ
deriving DecidableEq

/-- The `dropna(subset=[resale_price, floor_area_sqm, month, town,
flat_type])` predicate of line 269: the row survives iff none of the
five cells is missing. -/
def dropnaCritical (r : Row) : Bool :=
  r.resale_price.isSome && r.floor_area_sqm.isSome && r.month.isSome &&
    r.town.isSome && r.flat_type.isSome

/-- A pandas comparison `col > 0`: `NaN > 0` is false, so a missing cell
fails the filter. -/
def cellPos : Option ℚ → Bool
  | some q => decide (0 < q)
  | Option.none => false

/-- The filter of line 276: `(col >= 0) & (col <= 99)`; a missing cell
fails both comparisons. -/
def cellInLeaseRange : Option ℚ → Bool
  | some q => decide (0 ≤ q) && decide (q ≤ 99)
  | Option.none => false

/-- The final cleaning of the combined frame, lines 269-276, in source
order: drop rows missing any critical column, keep `resale_price > 0`,
keep `floor_area_sqm > 0`, keep `0 <= remaining_lease_years <= 99`.
(The `pd.to_numeric(..., errors=coerce)` of line 275 is the identity
here because the column is already optional-numeric: it is produced
only by `parse_remaining_lease` or the derivation formula.) -/
def finalClean (rows : List Row) : List Row :=
  (((rows.filter dropnaCritical).filter
        (fun r => cellPos r.resale_price)).filter
      (fun r => cellPos r.floor_area_sqm)).filter
    (fun r => cellInLeaseRange r.remaining_lease_years)

/-- `age_at_sale` of lines 229-230:
`(month.dt.year + (month.dt.month - 1)/12) - lease_commence_date`. -/
def ageAtSale (ym : Nat × Nat) (lcd : ℚ) : ℚ :=
  ((ym.1 : ℚ) + ((ym.2 : ℚ) - 1) / 12) - lcd

/-- The derivation branch of lines 208-236 at row level: rows where both
`month` and `lease_commence_date` are non-missing get
`99.0 - age_at_sale`; all other rows keep a missing marker (the `.loc`
assignment only touches `df_valid_dates.index`, and the column is
created as all-`NaN`; the `df_valid_dates.empty` branch likewise leaves
the whole column `NA`). -/
def deriveRemainingLease (month : Option (Nat × Nat)) (lcd : Option ℚ) : Option ℚ :=
  match month, lcd with
  | some ym, some l => some (99 - ageAtSale ym l)
  | _, _ => Option.none

/-- The `remaining_lease_years` resolution of lines 205-236 at row
level.  `hasLeaseText` is the source's `has_remaining_lease_str` flag
and `hasStagingCol` records whether the renamed
`remaining_lease_str_original` column exists.  The `elif` guard
(`lease_commence_date` and `month` both in the columns) always holds at
this point: line 194 adds `month` and line 202 adds
`lease_commence_date` when absent. -/
def resolveRemainingLease (hasLeaseText hasStagingCol : Bool) (leaseText : PyVal)
    (month : Option (Nat × Nat)) (lcd : Option ℚ) : Option ℚ :=
  if hasLeaseText && hasStagingCol then parse_remaining_lease leaseText
  else deriveRemainingLease month lcd

/-- The canonical column list `expected_columns` of lines 159-163. -/
def expected_columns : List String :=
  [("month"), ("town"), ("flat_type"), ("block"), ("street_name"),
   ("storey_range"), ("floor_area_sqm"), ("flat_model"),
   ("lease_commence_date"), ("resale_price"), ("remaining_lease_years")]

/-- A frame with dynamic columns: a row count and an ordered association
list from column name to the column's cells (cells are optional: `none`
is the missing marker `pd.NA`). -/
structure DynFrame (α : Type) where
  nrows : Nat
  cols : List (String × List (Option α))

/-- The column names of a frame, in order. -/
def colNames {α : Type} (f : DynFrame α) : List String := f.cols.map Prod.fst

/-- Lines 241-243: `for col in expected_columns: if col not in
df.columns: df[col] = pd.NA` — append, in canonical order, every
canonical column absent from the frame, filled with missing markers. -/
def addExpected {α : Type} (f : DynFrame α) : DynFrame α :=
  ⟨f.nrows,
   f.cols ++ (expected_columns.filter (fun c => ¬ c ∈ colNames f)).map
     (fun c => (c, List.replicate f.nrows Option.none))⟩

/-- Line 244: `df = df[expected_columns]` — select exactly the canonical
columns in canonical order; pandas raises `KeyError` (here `none`) if
one is absent. -/
def selectExpected {α : Type} (f : DynFrame α) : Option (DynFrame α) :=
  if ∀ c ∈ expected_columns, c ∈ colNames f then
    some ⟨f.nrows, expected_columns.map (fun c => (c, (f.cols.lookup c).getD []))⟩
  else Option.none

/-- The whole per-source schema-alignment step: add the missing canonical
columns, then select the canonical columns. -/
def alignToExpected {α : Type} (f : DynFrame α) : Option (DynFrame α) :=
  selectExpected (addExpected f)

/-- `alignToExpected` with the impossible failure defaulted away (used to
state schema facts without an existential). -/
def alignedOrEmpty {α : Type} (f : DynFrame α) : DynFrame α :=
  (alignToExpected f).getD ⟨0, []⟩

/-- `pd.concat(all_cleaned_dfs, ignore_index=True)` (line 265) on frames
that all share one schema: the result keeps the first frame's columns
and stacks the cells source by source. -/
def concatAligned {α : Type} : List (DynFrame α) → DynFrame α
  | [] => ⟨0, []⟩
  | f0 :: rest =>
    ⟨f0.nrows + (rest.map DynFrame.nrows).sum,
     f0.cols.map (fun nc =>
       (nc.1, ((f0 :: rest).map (fun f => (f.cols.lookup nc.1).getD [])).flatten))⟩

/-- The outcome of acquiring and processing one source in the loop of
lines 165-257: either the source is skipped (download failure, missing
file, or a processing exception caught at lines 250-257) or it yields a
cleaned frame appended to `all_cleaned_dfs`. -/
inductive SourceOutcome (α : Type) where
  | failed : SourceOutcome α
  | ok : α → SourceOutcome α
deriving DecidableEq

/-- The `all_cleaned_dfs` list after the source loop: failed sources
contribute nothing, successful ones contribute their frame in order. -/
def collectFrames {α : Type} (outcomes : List (SourceOutcome α)) : List α :=
  outcomes.filterMap (fun o =>
    match o with
    | SourceOutcome.failed => Option.none
    | SourceOutcome.ok f => some f)

/-- Lines 260-279: if no source produced a frame, return without writing
anything (`none`); otherwise concatenate, clean, and write the combined
output (`some`).  The embedding is a total function, so no exception
escapes the call. -/
def runCombine {α β : Type} (combine : List α → β)
    (outcomes : List (SourceOutcome α)) : Option β :=
  if (collectFrames outcomes).isEmpty then Option.none
  else some (combine (collectFrames outcomes))

/-- Modelled from the spec (claim C6's wording), for comparison with the
code's scan: the year count is determined solely by the FIRST token
containing `"year"` or `"yrs"`; it is the immediately preceding token
when that token is a plain integer, and otherwise no year count is
established (later keyword tokens are not consulted). -/
def claimYearScanFirst (parts : List Tok) : Option Nat :=
  match firstKwIdx isYearKw parts with
  | Option.none => Option.none
  | some i =>
    if 0 < i ∧ isDigitsTok (parts.getD (i - 1) []) then
      some (natOfDigits (parts.getD (i - 1) []))
    else Option.none

/-- The amended description of the keyword scan: the count comes from the
first keyword token whose immediately preceding token is a plain
integer.  Stated over the list of (token, previous token) pairs. -/
def scanPairsSpec (kwCheck : Tok → Bool) (prev0 : Option Tok) (parts : List Tok) :
    Option Nat :=
  ((parts.zip (prev0 :: parts.map some)).find?
      (fun pr => kwCheck pr.1 && isDigitsTok (pr.2.getD []))).map
    (fun pr => natOfDigits (pr.2.getD []))

/-- Demonstration frame for the schema-alignment witness: two rows, one
canonical column (with a missing cell) and one non-canonical column. -/
def fDemo : DynFrame Nat :=
  ⟨2, [(("town"), [some 1, Option.none]), (("extra_col"), [some 5, some 6])]⟩

/-- A fully valid combined row (values from the 1990 source), used as a
concrete survivor of the final filter. -/
def goodRow : Row :=
  { month := some (1990, 1), town := some ("ANG MO KIO"),
    flat_type := some ("3 ROOM"), block := some ("309"),
    street_name := some ("ANG MO KIO AVE 1"), storey_range := some ("07 TO 09"),
    floor_area_sqm := some 73, flat_model := some ("NEW GENERATION"),
    lease_commence_date := some 1977, resale_price := some 47200,
    remaining_lease_years := some 89 }

/-- A row that is valid except for `remaining_lease_years = 500`, used to
show the combined-dataset filter (not the parser) enforces the range. -/
def rowLease500 : Row :=
  { goodRow with remaining_lease_years := some 500 }

lemma ne_nil_isEmpty_false {α : Type} (l : List α) (h : l ≠ []) : l.isEmpty = false := by
  cases l with
  | nil => exact absurd rfl h
  | cons a l2 => rfl

lemma pyIsDigit_bounds {c : Char} (h : pyIsDigit c = true) :
    48 ≤ c.toNat ∧ c.toNat ≤ 57 := by
  simpa [pyIsDigit, Bool.and_eq_true, decide_eq_true_eq] using h

lemma pyLower_of_digit (c : Char) (h : pyIsDigit c = true) : pyLower c = c := by
  have h2 := pyIsDigit_bounds h
  have h3 : ¬ (65 ≤ c.toNat ∧ c.toNat ≤ 90) := by omega
  simp [pyLower, h3]

lemma map_pyLower_digits {t : List Char} (h : t.all pyIsDigit = true) :
    t.map pyLower = t := by
  induction t with
  | nil => rfl
  | cons a t2 ih =>
    simp only [List.all_cons, Bool.and_eq_true] at h
    simp [pyLower_of_digit a h.1, ih h.2]

lemma pySpace_eq_false_of_digit (c : Char) (h : pyIsDigit c = true) :
    pySpace c = false := by
  cases hs : pySpace c with
  | false => rfl
  | true =>
    exfalso
    have h6 : c = ' ' ∨ c = '\t' ∨ c = '\n' ∨ c = '\x0b' ∨ c = '\x0c' ∨ c = '\r' := by
      simpa [pySpace, Bool.or_eq_true, beq_iff_eq, or_assoc] using hs
    rcases h6 with rfl | rfl | rfl | rfl | rfl | rfl <;> exact absurd h (by decide)

lemma isPrefTok_mem {n h : List Char} {c : Char} (hp : isPrefTok n h = true)
    (hc : c ∈ n) : c ∈ h := by
  induction n generalizing h with
  | nil => simp at hc
  | cons a as ih =>
    cases h with
    | nil => simp [isPrefTok] at hp
    | cons b bs =>
      simp only [isPrefTok, Bool.and_eq_true, beq_iff_eq] at hp
      rcases List.mem_cons.mp hc with rfl | hc2
      · rw [hp.1]; exact List.mem_cons_self b bs
      · exact List.mem_cons_of_mem _ (ih hp.2 hc2)

lemma hasSub_mem {n h : List Char} {c : Char} (hs : hasSub n h = true)
    (hc : c ∈ n) : c ∈ h := by
  induction h with
  | nil =>
    simp only [hasSub, List.isEmpty_iff] at hs
    subst hs; simp at hc
  | cons b bs ih =>
    simp only [hasSub, Bool.or_eq_true] at hs
    rcases hs with h1 | h2
    · exact isPrefTok_mem h1 hc
    · exact List.mem_cons_of_mem _ (ih h2)

lemma hasSub_cons_of {n h : List Char} (c : Char) (hs : hasSub n h = true) :
    hasSub n (c :: h) = true := by
  simp [hasSub, hs]

lemma hasSub_append_left {n l2 : List Char} (l1 : List Char)
    (hs : hasSub n l2 = true) : hasSub n (l1 ++ l2) = true := by
  induction l1 with
  | nil => simpa using hs
  | cons a rest ih => exact hasSub_cons_of a ih

lemma hasSub_of_pref {n h : List Char} (hp : isPrefTok n h = true) :
    hasSub n h = true := by
  cases h with
  | nil =>
    cases n with
    | nil => rfl
    | cons a as => simp [isPrefTok] at hp
  | cons b bs => simp [hasSub, hp]

lemma hasSub_digits_eq_false {t n : List Char}
    (ht : t.all pyIsDigit = true) (c : Char) (hc : c ∈ n) (hcd : pyIsDigit c = false) :
    hasSub n t = false := by
  cases hst : hasSub n t with
  | false => rfl
  | true =>
    have := List.all_eq_true.mp ht c (hasSub_mem hst hc)
    simp [hcd] at this

lemma isYearKw_digits_eq_false {t : List Char} (ht : t.all pyIsDigit = true) :
    isYearKw t = false := by
  simp only [isYearKw, Bool.or_eq_false_iff]
  exact ⟨hasSub_digits_eq_false ht 'y' (by decide) (by decide),
    hasSub_digits_eq_false ht 'y' (by decide) (by decide)⟩

lemma isMonthKw_digits_eq_false {t : List Char} (ht : t.all pyIsDigit = true) :
    isMonthKw t = false := by
  simp only [isMonthKw, Bool.or_eq_false_iff]
  exact ⟨⟨hasSub_digits_eq_false ht 'm' (by decide) (by decide),
    hasSub_digits_eq_false ht 'm' (by decide) (by decide)⟩,
    hasSub_digits_eq_false ht 'm' (by decide) (by decide)⟩

lemma splitAux_nospace (t : List Char) (rest cur : List Char)
    (ht : ∀ c ∈ t, pySpace c = false) :
    splitAux (t ++ rest) cur = splitAux rest (t.reverse ++ cur) := by
  induction t generalizing cur with
  | nil => simp
  | cons a t2 ih =>
    have ha : pySpace a = false := ht a (List.mem_cons_self a t2)
    simp only [List.cons_append, splitAux, ha, Bool.false_eq_true, if_false, List.append_eq]
    rw [ih (a :: cur) (fun c hc => ht c (List.mem_cons_of_mem _ hc))]
    simp [List.reverse_cons, List.append_assoc]

lemma splitAux_token_space (t rest : List Char) (h1 : t ≠ [])
    (h2 : ∀ c ∈ t, pySpace c = false) :
    splitAux (t ++ ' ' :: rest) [] = t :: splitAux rest [] := by
  rw [splitAux_nospace t (' ' :: rest) [] h2]
  have hsp : pySpace ' ' = true := by decide
  have hrev : t.reverse ≠ [] := by
    intro h0
    exact h1 (by simpa using congrArg List.reverse h0)
  simp [splitAux, hsp, ne_nil_isEmpty_false _ hrev, List.reverse_reverse]

lemma splitAux_last_token (t : List Char) (h1 : t ≠ [])
    (h2 : ∀ c ∈ t, pySpace c = false) :
    splitAux t [] = [t] := by
  have h3 := splitAux_nospace t [] [] h2
  rw [List.append_nil] at h3
  rw [h3]
  have hrev : t.reverse ≠ [] := by
    intro h0
    exact h1 (by simpa using congrArg List.reverse h0)
  simp [splitAux, ne_nil_isEmpty_false _ hrev, List.reverse_reverse]

lemma pySplit_years_months (y m : List Char)
    (hy1 : y ≠ []) (hy2 : ∀ c ∈ y, pySpace c = false)
    (hm1 : m ≠ []) (hm2 : ∀ c ∈ m, pySpace c = false) :
    pySplit (y ++ (" years ").data ++ m ++ (" months").data) =
      [y, ("years").data, m, ("months").data] := by
  have hshape : y ++ (" years ").data ++ m ++ (" months").data =
      y ++ ' ' :: (("years").data ++ ' ' :: (m ++ ' ' :: ("months").data)) := by
    show y ++ (' ' :: (("years").data ++ [' '])) ++ m ++ (' ' :: ("months").data) = _
    simp [List.append_assoc]
  rw [pySplit, hshape]
  rw [splitAux_token_space y _ hy1 hy2]
  rw [splitAux_token_space (("years").data) _ (by decide) (by decide)]
  rw [splitAux_token_space m _ hm1 hm2]
  rw [splitAux_last_token (("months").data) (by decide) (by decide)]

lemma scan_cons_not_kw (kwCheck : Tok → Bool) (prev : Option Tok) (p : Tok)
    (rest : List Tok) (hk : kwCheck p = false) :
    scanNumBefore kwCheck prev (p :: rest) = scanNumBefore kwCheck (some p) rest := by
  simp [scanNumBefore, hk]

lemma scan_cons_kw_digit (kwCheck : Tok → Bool) (q p : Tok) (rest : List Tok)
    (hk : kwCheck p = true) (hd : isDigitsTok q = true) :
    scanNumBefore kwCheck (some q) (p :: rest) = some (natOfDigits q) := by
  simp [scanNumBefore, hk, hd]

lemma scan_cons_kw_nodigit (kwCheck : Tok → Bool) (q p : Tok) (rest : List Tok)
    (hk : kwCheck p = true) (hd : isDigitsTok q = false) :
    scanNumBefore kwCheck (some q) (p :: rest) = scanNumBefore kwCheck (some p) rest := by
  simp [scanNumBefore, hk, hd]

lemma scan_cons_kw_none (kwCheck : Tok → Bool) (p : Tok) (rest : List Tok)
    (hk : kwCheck p = true) :
    scanNumBefore kwCheck Option.none (p :: rest) = scanNumBefore kwCheck (some p) rest := by
  simp [scanNumBefore, hk]

lemma scan_no_kw (kwCheck : Tok → Bool) (parts : List Tok)
    (h : ∀ t ∈ parts, kwCheck t = false) :
    ∀ prev, scanNumBefore kwCheck prev parts = Option.none := by
  induction parts with
  | nil => intro prev; rfl
  | cons p rest ih =>
    intro prev
    rw [scan_cons_not_kw _ _ _ _ (h p (List.mem_cons_self p rest))]
    exact ih (fun t ht => h t (List.mem_cons_of_mem _ ht)) (some p)

lemma scan_eq_pairsSpec (kwCheck : Tok → Bool) (parts : List Tok) :
    ∀ prev0 : Option Tok,
      scanNumBefore kwCheck prev0 parts = scanPairsSpec kwCheck prev0 parts := by
  induction parts with
  | nil => intro prev0; rfl
  | cons p rest ih =>
    intro prev0
    have hzip : (p :: rest).zip (prev0 :: (p :: rest).map some) =
        (p, prev0) :: rest.zip (some p :: rest.map some) := by
      simp [List.zip]
    by_cases hk : kwCheck p = true
    · cases prev0 with
      | none =>
        rw [scan_cons_kw_none _ _ _ hk, ih (some p)]
        simp only [scanPairsSpec, hzip]
        rw [List.find?_cons_of_neg]
        simp [hk, isDigitsTok]
      | some q =>
        by_cases hd : isDigitsTok q = true
        · rw [scan_cons_kw_digit _ _ _ _ hk hd]
          simp only [scanPairsSpec, hzip]
          rw [List.find?_cons_of_pos]
          · simp
          · simp [hk, hd]
        · rw [scan_cons_kw_nodigit _ _ _ _ hk (by simpa using hd), ih (some p)]
          simp only [scanPairsSpec, hzip]
          rw [List.find?_cons_of_neg]
          simp [hk, hd]
    · have hk2 : kwCheck p = false := by simpa using hk
      rw [scan_cons_not_kw _ _ _ _ hk2, ih (some p)]
      simp only [scanPairsSpec, hzip]
      rw [List.find?_cons_of_neg]
      simp [hk2]

lemma collectFrames_eq_nil {α : Type} (outcomes : List (SourceOutcome α))
    (h : ∀ o ∈ outcomes, o = SourceOutcome.failed) : collectFrames outcomes = [] := by
  induction outcomes with
  | nil => rfl
  | cons o rest ih =>
    have ho := h o (List.mem_cons_self o rest)
    subst ho
    simpa [collectFrames] using ih (fun o2 h2 => h o2 (List.mem_cons_of_mem _ h2))

lemma lookup_append_right {β : Type} (c : String) (l1 l2 : List (String × β))
    (h : ¬ c ∈ l1.map Prod.fst) : (l1 ++ l2).lookup c = l2.lookup c := by
  induction l1 with
  | nil => rfl
  | cons ab rest ih =>
    obtain ⟨a, b⟩ := ab
    have hne : (c == a) = false := by
      refine beq_eq_false_iff_ne.mpr ?_
      intro h0
      exact h (by simp [h0])
    simp only [List.cons_append, List.lookup, hne]
    exact ih (fun hm => h (by simp at hm ⊢; exact Or.inr hm))

lemma lookup_map_self {β : Type} (g : String → β) (xs : List String) (c : String)
    (hc : c ∈ xs) : (xs.map (fun x => (x, g x))).lookup c = some (g c) := by
  induction xs with
  | nil => simp at hc
  | cons x rest ih =>
    by_cases hx : c = x
    · subst hx
      simp [List.lookup]
    · have hne : (c == x) = false := beq_eq_false_iff_ne.mpr hx
      have hc2 : c ∈ rest := by
        rcases List.mem_cons.mp hc with h0 | h0
        · exact absurd h0 hx
        · exact h0
      simp only [List.map_cons, List.lookup, hne]
      exact ih hc2

lemma colNames_addExpected {α : Type} (f : DynFrame α) :
    colNames (addExpected f) =
      colNames f ++ expected_columns.filter (fun c => ¬ c ∈ colNames f) := by
  simp only [addExpected, colNames, List.map_append, List.map_map]
  have h0 : (Prod.fst ∘ fun c : String => (c, List.replicate f.nrows (Option.none : Option α))) = id := rfl
  rw [h0, List.map_id]

lemma mem_colNames_addExpected {α : Type} (f : DynFrame α) (c : String)
    (hc : c ∈ expected_columns) : c ∈ colNames (addExpected f) := by
  rw [colNames_addExpected]
  by_cases h : c ∈ colNames f
  · exact List.mem_append_left _ h
  · exact List.mem_append_right _ (List.mem_filter.mpr ⟨hc, by simpa using h⟩)

lemma floatTokVal_of_digits {t : Tok} (h : t.all pyIsDigit = true) :
    floatTokVal t = (natOfDigits t : ℚ) := by
  have hdot : ∀ c ∈ t, (c != '.') = true := by
    intro c hc
    have hb := pyIsDigit_bounds (List.all_eq_true.mp h c hc)
    refine bne_iff_ne.mpr ?_
    intro h0
    rw [h0] at hb
    exact absurd hb (by decide)
  have h1 : t.takeWhile (fun c => c != '.') = t := List.takeWhile_eq_self_iff.mpr hdot
  have h2 : t.dropWhile (fun c => c != '.') = [] := List.dropWhile_eq_nil_iff.mpr hdot
  rw [floatTokVal, h1, h2]
  simp [natOfDigits]

lemma parse_str_eval (s : String) (hne : s.data ≠ []) :
    parse_remaining_lease (PyVal.str s) =
      parseCore (s.data.map pyLower) (pySplit (s.data.map pyLower)) := by
  simp only [parse_remaining_lease, if_neg hne, parseLeaseStr]

lemma parseCore_bare (cs : List Char) (parts : List Tok)
    (h1 : yearsOf cs parts = 0 ∧ monthsOf cs parts = 0 ∧ parts.length = 1 ∧
      isFloatTok (parts.getD 0 []) = true) :
    parseCore cs parts = some (floatTokVal (parts.getD 0 [])) := by
  simp only [parseCore]
  rw [if_pos]
  exact ⟨h1.1, h1.2.1, h1.2.2.1, h1.2.2.2⟩

lemma parseCore_sum (cs : List Char) (parts : List Tok) (Y M : Nat)
    (hY : yearsOf cs parts = Y) (hM : monthsFinal cs parts = M)
    (hnz : ¬ (Y = 0 ∧ M = 0))
    (hbare : ¬ (Y = 0 ∧ monthsOf cs parts = 0 ∧ parts.length = 1 ∧
      isFloatTok (parts.getD 0 []) = true)) :
    parseCore cs parts = some ((Y : ℚ) + (M : ℚ) / 12) := by
  simp only [parseCore, hY, hM]
  rw [if_neg, if_neg hnz]
  intro h2
  exact hbare ⟨h2.1, h2.2.1, h2.2.2.1, h2.2.2.2⟩

lemma parse_outcome_str_eval (s : String) (hne : s.data ≠ []) :
    parse_remaining_lease_outcome (PyInput.strVal s) =
      parseCoreOutcome (s.data.map pyLower) (pySplit (s.data.map pyLower)) := by
  simp only [parse_remaining_lease_outcome, if_neg hne]

lemma parseCoreOutcome_bare (cs : List Char) (parts : List Tok)
    (h1 : yearsOf cs parts = 0 ∧ monthsOf cs parts = 0 ∧ parts.length = 1 ∧
      isFloatTok (parts.getD 0 []) = true) :
    parseCoreOutcome cs parts = PyOutcome.ret (some (floatTokVal (parts.getD 0 []))) := by
  simp only [parseCoreOutcome]
  rw [if_pos]
  exact ⟨h1.1, h1.2.1, h1.2.2.1, h1.2.2.2⟩

lemma parseCoreOutcome_sum (cs : List Char) (parts : List Tok) (Y M : Nat)
    (hY : yearsOf cs parts = Y) (hM : monthsFinal cs parts = M)
    (hnz : ¬ (Y = 0 ∧ M = 0))
    (hbare : ¬ (Y = 0 ∧ monthsOf cs parts = 0 ∧ parts.length = 1 ∧
      isFloatTok (parts.getD 0 []) = true))
    (hYB : Y < pyFloatIntMax) (hMB : M < pyFloatIntMax) :
    parseCoreOutcome cs parts = PyOutcome.ret (some ((Y : ℚ) + (M : ℚ) / 12)) := by
  simp only [parseCoreOutcome, hY, hM]
  rw [if_neg, if_neg hnz, if_neg]
  · intro h3
    rcases h3 with h3 | h3 <;> omega
  · intro h2
    exact hbare ⟨h2.1, h2.2.1, h2.2.2.1, h2.2.2.2⟩

lemma parseCoreOutcome_overflow (cs : List Char) (parts : List Tok) (Y M : Nat)
    (hY : yearsOf cs parts = Y) (hM : monthsFinal cs parts = M)
    (hnz : ¬ (Y = 0 ∧ M = 0))
    (hbare : ¬ (Y = 0 ∧ monthsOf cs parts = 0 ∧ parts.length = 1 ∧
      isFloatTok (parts.getD 0 []) = true))
    (hover : pyFloatIntMax ≤ M ∨ pyFloatIntMax ≤ Y) :
    parseCoreOutcome cs parts = PyOutcome.overflowError := by
  simp only [parseCoreOutcome, hY, hM]
  rw [if_neg, if_neg hnz, if_pos hover]
  intro h2
  exact hbare ⟨h2.1, h2.2.1, h2.2.2.1, h2.2.2.2⟩

lemma parseCoreOutcome_agrees (cs : List Char) (parts : List Tok) (r : Option ℚ)
    (h : parseCoreOutcome cs parts = PyOutcome.ret r) : parseCore cs parts = r := by
  simp only [parseCoreOutcome] at h
  split_ifs at h with h1 h2 h3
  · simp only [PyOutcome.ret.injEq] at h
    rw [parseCore, if_pos h1, h]
  · simp only [PyOutcome.ret.injEq] at h
    rw [parseCore, if_neg h1, if_pos h2, h]
  · simp only [PyOutcome.ret.injEq] at h
    rw [parseCore, if_neg h1, if_neg h2, h]

lemma parse_outcome_agrees (v : PyInput) (r : Option ℚ)
    (h : parse_remaining_lease_outcome v = PyOutcome.ret r) :
    parse_remaining_lease (toPyVal v) = r := by
  cases v with
  | missing => simpa [parse_remaining_lease_outcome] using h
  | intNum n =>
    simp only [parse_remaining_lease_outcome] at h
    split_ifs at h
    simp only [PyOutcome.ret.injEq] at h
    simp [toPyVal, parse_remaining_lease, h]
  | floatNum q => simpa [parse_remaining_lease_outcome] using h
  | strVal s =>
    by_cases hne : s.data = []
    · simp only [parse_remaining_lease_outcome, if_pos hne, PyOutcome.ret.injEq] at h
      simp [toPyVal, parse_remaining_lease, hne, h]
    · rw [parse_outcome_str_eval s hne] at h
      show (if s.data = [] then Option.none else parseLeaseStr s.data) = r
      rw [if_neg hne, parseLeaseStr]
      exact parseCoreOutcome_agrees _ _ r h

/-- C7: the parser returns null for a missing marker, the empty string,
keyword-free non-numeric text, a bare keyword with no number, and — by
design — for no-whitespace forms and hyphen-separated forms. -/
theorem parse_null_returns :
    parse_remaining_lease PyVal.missing = Option.none
  ∧ parse_remaining_lease (PyVal.str ("")) = Option.none
  ∧ parse_remaining_lease (PyVal.str ("invalid")) = Option.none
  ∧ parse_remaining_lease (PyVal.str ("years")) = Option.none
  ∧ parse_remaining_lease (PyVal.str ("60years 6months")) = Option.none
  ∧ parse_remaining_lease (PyVal.str ("60-years 6-months")) = Option.none := by
  refine ⟨rfl, rfl, by decide, by decide, by decide, by decide⟩

/-- C10: the parser performs no range validation of its own — a bare
numeric string above 99 and a month count of 12 or more are both
accepted (`parse("500") = 500`, outside `[0, 99]`, and
`parse("60 years 100 months") = 60 + 100/12`); the range bound is
enforced only by the combined-dataset filter, which drops an otherwise
valid row carrying `remaining_lease_years = 500`. -/
theorem parser_no_range_validation :
    parse_remaining_lease (PyVal.str ("500")) = some 500
  ∧ ¬ ((500 : ℚ) ≤ 99)
  ∧ parse_remaining_lease (PyVal.str ("60 years 100 months")) =
      some ((60 : ℚ) + (100 : ℚ) / 12)
  ∧ finalClean [rowLease500] = [] := by
  refine ⟨?_, by norm_num, ?_, ?_⟩
  · rw [parse_str_eval _ (by decide), parseCore_bare _ _ (by decide)]
    have h2 : (pySplit ((("500").data).map pyLower)).getD 0 [] = ("500").data := by decide
    rw [h2, floatTokVal_of_digits (by decide)]
    norm_num [show natOfDigits (("500").data) = 500 from by decide]
  · rw [parse_str_eval _ (by decide), parseCore_sum _ _ 60 100 (by decide) (by decide) (by decide) (by decide)]
    norm_num
  · show List.filter _ (List.filter _ (List.filter _ (List.filter _ _))) = []
    norm_num [dropnaCritical, cellPos, cellInLeaseRange, rowLease500, goodRow, List.filter]

/-- C1: every row surviving the final combined cleaning has a present,
strictly positive `resale_price` and `floor_area_sqm`, a present
`remaining_lease_years` in `[0, 99]` (missing values fail the inclusive
range filter), and non-missing `month`, `town` and `flat_type`. -/
theorem combined_output_validity (rows : List Row) (r : Row)
    (hr : r ∈ finalClean rows) :
    (∃ p, r.resale_price = some p ∧ 0 < p)
  ∧ (∃ a, r.floor_area_sqm = some a ∧ 0 < a)
  ∧ (∃ l, r.remaining_lease_years = some l ∧ 0 ≤ l ∧ l ≤ 99)
  ∧ r.month.isSome = true ∧ r.town.isSome = true ∧ r.flat_type.isSome = true := by
  simp only [finalClean] at hr
  have h4 := List.mem_filter.mp hr
  have h3 := List.mem_filter.mp h4.1
  have h2 := List.mem_filter.mp h3.1
  have h1 := List.mem_filter.mp h2.1
  have hd := h1.2
  simp only [dropnaCritical, Bool.and_eq_true] at hd
  refine ⟨?_, ?_, ?_, hd.1.1.2, hd.1.2, hd.2⟩
  · rcases hp : r.resale_price with _ | p
    · have hc := h2.2
      rw [hp] at hc
      simp [cellPos] at hc
    · refine ⟨p, rfl, ?_⟩
      have hc := h2.2
      rw [hp] at hc
      simpa [cellPos, decide_eq_true_eq] using hc
  · rcases ha : r.floor_area_sqm with _ | a
    · have hc := h3.2
      rw [ha] at hc
      simp [cellPos] at hc
    · refine ⟨a, rfl, ?_⟩
      have hc := h3.2
      rw [ha] at hc
      simpa [cellPos, decide_eq_true_eq] using hc
  · rcases hl : r.remaining_lease_years with _ | l
    · have hc := h4.2
      rw [hl] at hc
      simp [cellInLeaseRange] at hc
    · refine ⟨l, rfl, ?_⟩
      have hc := h4.2
      rw [hl] at hc
      simpa [cellInLeaseRange, Bool.and_eq_true, decide_eq_true_eq] using hc

/-- Witness for C1: the concrete row `goodRow` survives the filter and
the guarantees hold for it. -/
theorem combined_output_validity_witness :
    goodRow.month.isSome = true ∧ goodRow.town.isSome = true
  ∧ goodRow.flat_type.isSome = true := by
  have hclean : finalClean [goodRow] = [goodRow] := by
    norm_num [finalClean, dropnaCritical, cellPos, cellInLeaseRange, goodRow, List.filter]
  have h := combined_output_validity [goodRow] goodRow
    (by rw [hclean]; exact List.mem_cons_self _ _)
  exact ⟨h.2.2.2.1, h.2.2.2.2.1, h.2.2.2.2.2⟩

/-- C4: for a source whose capability flag is false, a row with both
`month` and `lease_commence_date` present gets
`99 - ((year + (month - 1)/12) - lease_commence_year)`; a row missing
either field gets a missing marker; and `month = 1990-01` with
`lease_commence_date = 1980` yields exactly `89`. -/
theorem derived_remaining_lease (hs : Bool) (lt : PyVal) (y mo : Nat) (l : ℚ)
    (lcd : Option ℚ) (month : Option (Nat × Nat)) :
    resolveRemainingLease false hs lt (some (y, mo)) (some l)
        = some (99 - (((y : ℚ) + ((mo : ℚ) - 1) / 12) - l))
  ∧ resolveRemainingLease false hs lt Option.none lcd = Option.none
  ∧ resolveRemainingLease false hs lt month Option.none = Option.none
  ∧ resolveRemainingLease false true PyVal.missing (some (1990, 1)) (some 1980)
      = some 89 := by
  refine ⟨?_, ?_, ?_, ?_⟩
  · simp [resolveRemainingLease, deriveRemainingLease, ageAtSale]
  · simp [resolveRemainingLease, deriveRemainingLease]
  · cases month <;> simp [resolveRemainingLease, deriveRemainingLease]
  · simp [resolveRemainingLease, deriveRemainingLease, ageAtSale]
    norm_num

/-- C8: if every source fails, the pipeline returns without producing a
combined output; one failed source contributes nothing while the other
sources' frames are kept; and any successful source guarantees a
combined output is produced.  The embedding is total, so no exception
escapes the call. -/
theorem pipeline_failure_policy {α β : Type} (combine : List α → β)
    (outcomes pre post : List (SourceOutcome α)) (fr : α) :
    ((∀ o ∈ outcomes, o = SourceOutcome.failed) →
      runCombine combine outcomes = Option.none)
  ∧ collectFrames (pre ++ SourceOutcome.failed :: post) =
      collectFrames pre ++ collectFrames post
  ∧ (SourceOutcome.ok fr ∈ outcomes → ∃ y, runCombine combine outcomes = some y) := by
  refine ⟨?_, ?_, ?_⟩
  · intro h
    rw [runCombine, collectFrames_eq_nil outcomes h]
    rfl
  · simp [collectFrames, List.filterMap_append, List.filterMap_cons]
  · intro h
    have hmem : fr ∈ collectFrames outcomes := by
      rw [collectFrames]
      exact List.mem_filterMap.mpr ⟨SourceOutcome.ok fr, h, rfl⟩
    have hne : (collectFrames outcomes).isEmpty = false := by
      apply ne_nil_isEmpty_false
      intro h0
      rw [h0] at hmem
      simp at hmem
    refine ⟨combine (collectFrames outcomes), ?_⟩
    rw [runCombine, hne]
    simp

/-- Witness for C8: two failed sources produce no output; a failed plus
a successful source still produce a combined output. -/
theorem pipeline_failure_policy_witness :
    runCombine List.length
        ([SourceOutcome.failed, SourceOutcome.failed] : List (SourceOutcome Nat)) =
      Option.none
  ∧ (runCombine List.length
        ([SourceOutcome.failed, SourceOutcome.ok 5] : List (SourceOutcome Nat))).isSome =
      true := by
  constructor
  · exact (pipeline_failure_policy List.length
      [SourceOutcome.failed, SourceOutcome.failed] [] [] 0).1 (by decide)
  · obtain ⟨y, hy⟩ := (pipeline_failure_policy List.length
      [SourceOutcome.failed, SourceOutcome.ok 5] [] [] 5).2.2 (by decide)
    rw [hy]
    rfl

set_option maxRecDepth 8192 in
/-- C9 (counterexample): the no-exception part of the claim fails —
`parse_remaining_lease(10 ** 400)` raises OverflowError at line 94
(`float(lease_str)` on an int outside the double range), and a string
carrying a 400-digit year count raises OverflowError at line 147; in
both cases the `except (ValueError, IndexError)` does not catch it. -/
theorem parse_overflow_counterexample :
    parse_remaining_lease_outcome (PyInput.intNum ((10 ^ 400 : ℕ) : ℤ)) =
      PyOutcome.overflowError
  ∧ parse_remaining_lease_outcome
      (PyInput.strVal (String.mk (List.replicate 400 '9' ++ (" years").data))) =
    PyOutcome.overflowError := by
  refine ⟨by decide, by decide⟩

/-- C9 (amended): `parse_remaining_lease` terminates on every input; it
never raises for a missing marker, a float, an int within the double
range, or a string whose scanned counts fit a float, and in those cases
it returns null or a float value; ints and scanned year/month counts of
magnitude at least `pyFloatIntMax` instead raise an uncaught
OverflowError (lines 94 and 147); every non-null result on a string
input is non-negative. -/
theorem parse_outcome_total_nonneg :
    (∀ q : ℚ, parse_remaining_lease_outcome (PyInput.floatNum q) = PyOutcome.ret (some q))
  ∧ (∀ n : ℤ, n.natAbs < pyFloatIntMax →
      parse_remaining_lease_outcome (PyInput.intNum n) = PyOutcome.ret (some (n : ℚ)))
  ∧ parse_remaining_lease_outcome PyInput.missing = PyOutcome.ret Option.none
  ∧ (∀ (s : String) (q : ℚ),
      parse_remaining_lease_outcome (PyInput.strVal s) = PyOutcome.ret (some q) →
        0 ≤ q) := by
  refine ⟨fun q => rfl, fun n hn => ?_, rfl, fun s q h => ?_⟩
  · rw [parse_remaining_lease_outcome, if_neg (by omega)]
  · by_cases hne : s.data = []
    · rw [parse_remaining_lease_outcome, if_pos hne] at h
      simp at h
    · rw [parse_outcome_str_eval s hne, parseCoreOutcome] at h
      split_ifs at h with hc1 hc2 hc3
      · simp only [PyOutcome.ret.injEq, Option.some_inj] at h
        rw [← h, floatTokVal]
        positivity
      · simp at h
      · simp only [PyOutcome.ret.injEq, Option.some_inj] at h
        rw [← h]
        positivity

set_option maxRecDepth 8192 in
/-- Witness for C9 (amended): the int `7` fits a float and is returned
as-is, and the non-null string result `parse("500") = 500` is
non-negative. -/
theorem parse_outcome_total_nonneg_witness :
    parse_remaining_lease_outcome (PyInput.intNum 7) = PyOutcome.ret (some 7)
  ∧ (0 : ℚ) ≤ 500 := by
  constructor
  · have h := parse_outcome_total_nonneg.2.1 7 (by decide)
    simpa using h
  · refine parse_outcome_total_nonneg.2.2.2 ("500") 500 ?_
    rw [parse_outcome_str_eval _ (by decide), parseCoreOutcome_bare _ _ (by decide)]
    have h2 : (pySplit ((("500").data).map pyLower)).getD 0 [] = ("500").data := by decide
    rw [h2, floatTokVal_of_digits (by decide)]
    norm_num [show natOfDigits (("500").data) = 500 from by decide]

/-- C2: aligning any per-source frame to the canonical schema always
succeeds, yields exactly the eleven canonical columns in canonical
order (non-canonical columns are dropped), fills every canonical column
absent from the source with missing markers, and concatenation of
aligned frames preserves the canonical schema. -/
theorem canonical_schema_alignment {α : Type} (f : DynFrame α) (c : String)
    (g0 : DynFrame α) (rest : List (DynFrame α)) :
    (alignToExpected f).isSome = true
  ∧ colNames (alignedOrEmpty f) = expected_columns
  ∧ (c ∈ expected_columns → ¬ c ∈ colNames f →
      (alignedOrEmpty f).cols.lookup c = some (List.replicate f.nrows Option.none))
  ∧ (colNames g0 = expected_columns →
      colNames (concatAligned (g0 :: rest)) = expected_columns) := by
  have hall : ∀ c2 ∈ expected_columns, c2 ∈ colNames (addExpected f) :=
    fun c2 hc2 => mem_colNames_addExpected f c2 hc2
  have hsel : alignToExpected f =
      some ⟨f.nrows, expected_columns.map
        (fun c2 => (c2, ((addExpected f).cols.lookup c2).getD []))⟩ := by
    rw [alignToExpected, selectExpected, if_pos hall]
    rfl
  have halign : alignedOrEmpty f = ⟨f.nrows, expected_columns.map
      (fun c2 => (c2, ((addExpected f).cols.lookup c2).getD []))⟩ := by
    rw [alignedOrEmpty, hsel]
    rfl
  refine ⟨by rw [alignToExpected] at hsel; rw [alignToExpected, hsel]; rfl, ?_, ?_, ?_⟩
  · rw [halign]
    show (expected_columns.map
      (fun c2 => (c2, ((addExpected f).cols.lookup c2).getD []))).map Prod.fst =
        expected_columns
    rw [List.map_map]
    have h0 : (Prod.fst ∘ fun c2 : String =>
        (c2, ((addExpected f).cols.lookup c2).getD ([] : List (Option α)))) = id := rfl
    rw [h0, List.map_id]
  · intro hce hcn
    rw [halign]
    show (expected_columns.map
      (fun c2 => (c2, ((addExpected f).cols.lookup c2).getD []))).lookup c = _
    rw [lookup_map_self _ _ _ hce]
    have hl : (addExpected f).cols.lookup c =
        some (List.replicate f.nrows (Option.none : Option α)) := by
      show (f.cols ++ (expected_columns.filter (fun c2 => ¬ c2 ∈ colNames f)).map
        (fun c2 => (c2, List.replicate f.nrows Option.none))).lookup c = _
      rw [lookup_append_right c _ _ hcn]
      exact lookup_map_self _ _ c (List.mem_filter.mpr ⟨hce, by simpa using hcn⟩)
    rw [hl]
    rfl
  · intro hg0
    show ((concatAligned (g0 :: rest)).cols).map Prod.fst = expected_columns
    simp only [concatAligned]
    rw [List.map_map]
    have h0 : (Prod.fst ∘ fun nc : String × List (Option α) =>
        (nc.1, ((g0 :: rest).map (fun f2 => (f2.cols.lookup nc.1).getD [])).flatten)) =
          Prod.fst := rfl
    rw [h0]
    exact hg0

/-- Witness for C2: the demonstration frame (one canonical column, one
extra column) aligns to exactly the canonical schema and its absent
canonical column `month` is filled with missing markers. -/
theorem canonical_schema_alignment_witness :
    colNames (alignedOrEmpty fDemo) = expected_columns
  ∧ (alignedOrEmpty fDemo).cols.lookup ("month") =
      some (List.replicate fDemo.nrows Option.none)
  ∧ colNames (concatAligned (alignedOrEmpty fDemo :: [])) = expected_columns := by
  have h := canonical_schema_alignment fDemo ("month") (alignedOrEmpty fDemo) []
  exact ⟨h.2.1, h.2.2.1 (by decide) (by decide), h.2.2.2 (by decide)⟩

/-- C3 (counterexample): `"0 years 0 months"` has well-formed year and
month components both equal to zero, yet the parser returns null (the
code cannot distinguish a scanned zero from a failed scan), refuting
the claim that all `Y >= 0`, `M >= 0` yield non-null `Y + M/12`. -/
theorem lease_parse_zero_zero_counterexample :
    parse_remaining_lease (PyVal.str ("0 years 0 months")) = Option.none
  ∧ ¬ parse_remaining_lease (PyVal.str ("0 years 0 months")) =
      some ((0 : ℚ) + (0 : ℚ) / 12) := by
  have h : parse_remaining_lease (PyVal.str ("0 years 0 months")) = Option.none := by
    decide
  refine ⟨h, ?_⟩
  rw [h]
  simp

/-- C3 (amended): for digit strings `y` and `m` not both denoting zero,
`parse` applied to the string `"{y} years {m} months"` returns exactly
`int(y) + int(m)/12` whenever both counts fit a CPython float; when a
count reaches `pyFloatIntMax` the line-147 int-to-float conversion
raises an uncaught OverflowError instead; and when both counts denote
zero the parser returns null
(`lease_parse_zero_zero_counterexample`). -/
theorem lease_parse_years_months_amended (y m : List Char)
    (hy1 : y ≠ []) (hy2 : y.all pyIsDigit = true)
    (hm1 : m ≠ []) (hm2 : m.all pyIsDigit = true)
    (hnz : ¬ (natOfDigits y = 0 ∧ natOfDigits m = 0)) :
    (natOfDigits y < pyFloatIntMax → natOfDigits m < pyFloatIntMax →
      parse_remaining_lease_outcome
          (PyInput.strVal (String.mk (y ++ (" years ").data ++ m ++ (" months").data))) =
        PyOutcome.ret (some ((natOfDigits y : ℚ) + (natOfDigits m : ℚ) / 12)))
  ∧ (pyFloatIntMax ≤ natOfDigits y →
      parse_remaining_lease_outcome
          (PyInput.strVal (String.mk (y ++ (" years ").data ++ m ++ (" months").data))) =
        PyOutcome.overflowError) := by
  have hyd : isDigitsTok y = true := by
    simp [isDigitsTok, ne_nil_isEmpty_false y hy1, hy2]
  have hmd : isDigitsTok m = true := by
    simp [isDigitsTok, ne_nil_isEmpty_false m hm1, hm2]
  have hysp : ∀ c ∈ y, pySpace c = false := fun c hc =>
    pySpace_eq_false_of_digit c (List.all_eq_true.mp hy2 c hc)
  have hmsp : ∀ c ∈ m, pySpace c = false := fun c hc =>
    pySpace_eq_false_of_digit c (List.all_eq_true.mp hm2 c hc)
  have hne : (String.mk (y ++ (" years ").data ++ m ++ (" months").data)).data ≠ [] := by
    cases y with
    | nil => exact absurd rfl hy1
    | cons a y2 => simp
  have hdata : (String.mk (y ++ (" years ").data ++ m ++ (" months").data)).data =
      y ++ (" years ").data ++ m ++ (" months").data := rfl
  have hlow : (y ++ (" years ").data ++ m ++ (" months").data).map pyLower =
      y ++ (" years ").data ++ m ++ (" months").data := by
    simp only [List.map_append]
    rw [map_pyLower_digits hy2, map_pyLower_digits hm2]
    rw [show ((" years ").data).map pyLower = (" years ").data from by decide]
    rw [show ((" months").data).map pyLower = (" months").data from by decide]
  have hsplit := pySplit_years_months y m hy1 hysp hm1 hmsp
  have hgy : hasSub (("year").data)
      (y ++ (" years ").data ++ m ++ (" months").data) = true := by
    have h1 : hasSub (("year").data)
        ((" years ").data ++ (m ++ (" months").data)) = true := by
      show hasSub (("year").data)
        (' ' :: ('y' :: 'e' :: 'a' :: 'r' :: 's' :: ' ' :: (m ++ (" months").data))) = true
      apply hasSub_cons_of
      apply hasSub_of_pref
      simp [isPrefTok]
    have h2 := hasSub_append_left y h1
    simpa [List.append_assoc] using h2
  have hgm : hasSub (("month").data)
      (y ++ (" years ").data ++ m ++ (" months").data) = true := by
    have h1 : hasSub (("month").data) ((" months").data) = true := by decide
    have h2 := hasSub_append_left m h1
    have h3 := hasSub_append_left ((" years ").data) h2
    have h4 := hasSub_append_left y h3
    simpa [List.append_assoc] using h4
  have hyNk : isYearKw y = false := isYearKw_digits_eq_false hy2
  have hmNky : isMonthKw y = false := isMonthKw_digits_eq_false hy2
  have hmNkm : isMonthKw m = false := isMonthKw_digits_eq_false hm2
  have hscanY : scanNumBefore isYearKw Option.none
      [y, ("years").data, m, ("months").data] = some (natOfDigits y) := by
    rw [scan_cons_not_kw _ _ _ _ hyNk]
    exact scan_cons_kw_digit _ _ _ _ (by decide) hyd
  have hscanM : scanNumBefore isMonthKw Option.none
      [y, ("years").data, m, ("months").data] = some (natOfDigits m) := by
    rw [scan_cons_not_kw _ _ _ _ hmNky]
    rw [scan_cons_not_kw _ _ _ _ (by decide : isMonthKw (("years").data) = false)]
    rw [scan_cons_not_kw _ _ _ _ hmNkm]
    exact scan_cons_kw_digit _ _ _ _ (by decide) hmd
  have hY : yearsOf (y ++ (" years ").data ++ m ++ (" months").data)
      [y, ("years").data, m, ("months").data] = natOfDigits y := by
    have hcond : (hasSub (("year").data)
        (y ++ (" years ").data ++ m ++ (" months").data) ||
      hasSub (("yrs").data)
        (y ++ (" years ").data ++ m ++ (" months").data)) = true := by
      rw [hgy]
      simp
    rw [yearsOf, if_pos hcond, hscanY]
    rfl
  have hM0 : monthsOf (y ++ (" years ").data ++ m ++ (" months").data)
      [y, ("years").data, m, ("months").data] = natOfDigits m := by
    have hcond : (hasSub (("month").data)
        (y ++ (" years ").data ++ m ++ (" months").data) ||
      hasSub (("mth").data)
        (y ++ (" years ").data ++ m ++ (" months").data) ||
      hasSub (("mths").data)
        (y ++ (" years ").data ++ m ++ (" months").data)) = true := by
      rw [hgm]
      simp
    rw [monthsOf, if_pos hcond, hscanM]
    rfl
  have hidx : firstKwIdx isYearKw [y, ("years").data, m, ("months").data] = some 1 := by
    simp [firstKwIdx, hyNk, (by decide : isYearKw (("years").data) = true)]
  have hadj : adjacentMonths [y, ("years").data, m, ("months").data] = 0 := by
    simp only [adjacentMonths, hidx]
    rw [if_pos ⟨by simp, by show isDigitsTok m = true; exact hmd⟩]
    rw [if_pos ⟨by simp, by show isMonthExclKw (("months").data) = true; decide⟩]
  have hMF : monthsFinal (y ++ (" years ").data ++ m ++ (" months").data)
      [y, ("years").data, m, ("months").data] = natOfDigits m := by
    rw [monthsFinal, hY, hM0]
    by_cases h0 : 0 < natOfDigits y ∧ natOfDigits m = 0
    · rw [if_pos h0, hadj, h0.2]
    · rw [if_neg h0]
  constructor
  · intro hyB hmB
    rw [parse_outcome_str_eval _ hne, hdata, hlow, hsplit]
    exact parseCoreOutcome_sum _ _ (natOfDigits y) (natOfDigits m) hY hMF hnz
      (fun h0 => by simp at h0) hyB hmB
  · intro hyB
    rw [parse_outcome_str_eval _ hne, hdata, hlow, hsplit]
    exact parseCoreOutcome_overflow _ _ (natOfDigits y) (natOfDigits m) hY hMF hnz
      (fun h0 => by simp at h0) (Or.inr hyB)

set_option maxRecDepth 8192 in
/-- Witness for C3 (amended): `"60 years 07 months"` parses to
`60 + 7/12`, while a 400-digit year count overflows the line-147
conversion and the call raises. -/
theorem lease_parse_years_months_amended_witness :
    parse_remaining_lease_outcome (PyInput.strVal (String.mk
        ((("60").data) ++ (" years ").data ++ (("07").data) ++ (" months").data))) =
      PyOutcome.ret
        (some ((natOfDigits (("60").data) : ℚ) + (natOfDigits (("07").data) : ℚ) / 12))
  ∧ (natOfDigits (("60").data) : ℚ) + (natOfDigits (("07").data) : ℚ) / 12 =
      60 + 7 / 12
  ∧ parse_remaining_lease_outcome (PyInput.strVal (String.mk
        (List.replicate 400 '9' ++ (" years ").data ++ (("07").data) ++ (" months").data))) =
      PyOutcome.overflowError := by
  refine ⟨?_, ?_, ?_⟩
  · exact (lease_parse_years_months_amended (("60").data) (("07").data)
      (by decide) (by decide) (by decide) (by decide) (by decide)).1 (by decide) (by decide)
  · norm_num [show natOfDigits (("60").data) = 60 from by decide,
      show natOfDigits (("07").data) = 7 from by decide]
  · exact (lease_parse_years_months_amended (List.replicate 400 '9') (("07").data)
      (by decide) (by decide) (by decide) (by decide) (by decide)).2 (by decide)

/-- C5 (counterexample): in `"0 years 04"` the keyword scan establishes
the year count `0`, no month keyword matches anywhere, and the token
after the year keyword is the plain integer `04`; yet the parser
returns null instead of `0 + 4/12`, because the adjacent-number
fallback requires a strictly positive year count. -/
theorem adjacent_fallback_counterexample :
    scanNumBefore isYearKw Option.none
        (pySplit ((("0 years 04").data).map pyLower)) = some 0
  ∧ (pySplit ((("0 years 04").data).map pyLower)).all
      (fun t => !(isMonthKw t)) = true
  ∧ isDigitsTok ((pySplit ((("0 years 04").data).map pyLower)).getD 2 []) = true
  ∧ parse_remaining_lease (PyVal.str ("0 years 04")) = Option.none := by
  refine ⟨by decide, by decide, by decide, by decide⟩

/-- C5 (amended): when the keyword scan establishes a strictly positive
year count `Y`, no month keyword matches anywhere, and the token right
after the first year-keyword token is a plain integer denoting `M`
(the token after that, when present, cannot be a month keyword since
none matches), then — provided both counts fit a CPython float, since a
count of at least `pyFloatIntMax` instead raises an uncaught
OverflowError at line 147 — the parser returns `Y + M/12`. -/
theorem adjacent_fallback_amended (s : String) (Y M i : Nat)
    (hY : yearsOf (s.data.map pyLower) (pySplit (s.data.map pyLower)) = Y)
    (hpos : 0 < Y)
    (hnom : ∀ t ∈ pySplit (s.data.map pyLower), isMonthKw t = false)
    (hidx : firstKwIdx isYearKw (pySplit (s.data.map pyLower)) = some i)
    (hlen : i + 1 < (pySplit (s.data.map pyLower)).length)
    (hdig : isDigitsTok ((pySplit (s.data.map pyLower)).getD (i + 1) []) = true)
    (hM : natOfDigits ((pySplit (s.data.map pyLower)).getD (i + 1) []) = M)
    (hYB : Y < pyFloatIntMax) (hMB : M < pyFloatIntMax) :
    parse_remaining_lease_outcome (PyInput.strVal s) =
      PyOutcome.ret (some ((Y : ℚ) + (M : ℚ) / 12)) := by
  have hne : s.data ≠ [] := by
    intro h0
    rw [h0] at hidx
    simp [pySplit, splitAux, firstKwIdx] at hidx
  have hm0 : monthsOf (s.data.map pyLower) (pySplit (s.data.map pyLower)) = 0 := by
    rw [monthsOf]
    split
    · rw [scan_no_kw isMonthKw _ hnom Option.none]
      rfl
    · rfl
  have hexcl : ¬ (i + 2 < (pySplit (s.data.map pyLower)).length ∧
      isMonthExclKw ((pySplit (s.data.map pyLower)).getD (i + 2) []) = true) := by
    rintro ⟨hlt, hkw⟩
    have hmem : (pySplit (s.data.map pyLower)).getD (i + 2) [] ∈
        pySplit (s.data.map pyLower) := by
      rw [List.getD_eq_getElem?_getD, List.getElem?_eq_getElem hlt]
      exact List.getElem_mem hlt
    have h3 := hnom _ hmem
    simp only [isMonthKw, Bool.or_eq_false_iff] at h3
    rw [isMonthExclKw, h3.1.1, h3.1.2] at hkw
    simp at hkw
  have hadj : adjacentMonths (pySplit (s.data.map pyLower)) = M := by
    simp only [adjacentMonths, hidx]
    rw [if_pos ⟨hlen, hdig⟩, if_neg hexcl, hM]
  have hMF : monthsFinal (s.data.map pyLower) (pySplit (s.data.map pyLower)) = M := by
    rw [monthsFinal, hY, hm0, if_pos ⟨hpos, rfl⟩, hadj]
  rw [parse_outcome_str_eval s hne]
  exact parseCoreOutcome_sum _ _ Y M hY hMF
    (fun h0 => absurd h0.1 (by omega)) (fun h0 => absurd h0.1 (by omega)) hYB hMB

set_option maxRecDepth 8192 in
/-- Witness for C5 (amended): `"61 years 04"` parses to `61 + 4/12`. -/
theorem adjacent_fallback_amended_witness :
    parse_remaining_lease_outcome (PyInput.strVal ("61 years 04")) =
      PyOutcome.ret (some ((61 : ℚ) + (4 : ℚ) / 12)) := by
  have h := adjacent_fallback_amended ("61 years 04") 61 4 1
    (by decide) (by decide) (by decide) (by decide) (by decide) (by decide) (by decide)
    (by decide) (by decide)
  simpa using h

/-- C6 (counterexample): in `"years 5 years"` the first year-keyword
token has no predecessor at all, so under the claim no year count would
be established and the parse would be null; the code instead keeps
scanning, establishes `5` from the second keyword token, and returns
`5 + 5/12` (the adjacent-number fallback then also reads `5`). -/
theorem year_scan_first_token_counterexample :
    claimYearScanFirst (pySplit ((("years 5 years").data).map pyLower)) = Option.none
  ∧ scanNumBefore isYearKw Option.none
      (pySplit ((("years 5 years").data).map pyLower)) = some 5
  ∧ parse_remaining_lease (PyVal.str ("years 5 years")) =
      some ((5 : ℚ) + (5 : ℚ) / 12) := by
  refine ⟨by decide, by decide, ?_⟩
  rw [parse_str_eval _ (by decide),
    parseCore_sum _ _ 5 5 (by decide) (by decide) (by decide) (by decide)]
  norm_num

/-- C6 (amended): the year count is determined by the first year-keyword
token whose immediately preceding token is a plain integer — keyword
tokens without an integer predecessor are passed over, and when no such
token exists no year count is established.  Stated as: the code's scan
equals the first-matching-pair search over (token, previous token)
pairs. -/
theorem year_scan_amended (prev0 : Option Tok) (parts : List Tok) :
    scanNumBefore isYearKw prev0 parts = scanPairsSpec isYearKw prev0 parts :=
  scan_eq_pairsSpec isYearKw parts prev0
